import Mathlib

/-!
Shallow embedding of `src/main.rs` of the bevy-pawn repository.

The embedding covers the four subsystems the specification calls the core:
the screen-to-world-to-tile transform (`send_resouce_mouse_position`), the
hover/selection engine (`is_thing_hovered`, `select_pawn`), the pawn
movement state machine (`move_pawn`), and the camera controller
(`move_camera`, `zoom_camera`).  `f32` arithmetic is idealised as real
arithmetic; `Option` models the absent-value fields of the
`MousePosition` resource.  Rust identifiers are kept, including the
source's spelling `send_resouce_mouse_position`.
-/

namespace BevyPawn

/-- Window width constant from main.rs; the window is created at this
fixed size and is not resizable. -/
def DEFAULT_WINDOW_WIDTH : ℝ := 1600

/-- Window height constant from main.rs. -/
def DEFAULT_WINDOW_HEIGHT : ℝ := 900

/-- Side length of one tile in world units. -/
def TILE_SIZE : ℝ := 50

/-- Two dimensional vector, standing for bevy `Vec2`. -/
@[ext]
structure Vec2 where
  x : ℝ
  y : ℝ

/-- Three dimensional vector, standing for bevy `Vec3` (a `Transform`
translation). -/
@[ext]
structure Vec3 where
  x : ℝ
  y : ℝ
  z : ℝ

/-- Rust `f32::round`: round half away from zero. -/
noncomputable def rustRound (q : ℝ) : ℤ :=
  if 0 ≤ q then ⌊q + 1 / 2⌋ else -⌊-q + 1 / 2⌋

/-- The `MousePosition` resource of main.rs: every field is `None` while
the cursor is outside the window. -/
structure MousePosition where
  window : Option Vec2
  field : Option Vec2
  field_tile_rounded : Option Vec2
  field_before_middle_pressed : Option Vec2
  tile : Option (ℤ × ℤ)

/-- The `Settings` resource of main.rs. -/
structure Settings where
  camera_move_speed : ℝ
  camera_zoom_speed : ℝ

/-- `Settings::default()` in main.rs. -/
def Settings.standard : Settings :=
  { camera_move_speed := 100, camera_zoom_speed := 0.1 }

/-- The window-to-world formula inside `send_resouce_mouse_position`:
`x = (p.x + c.x / s − W/2) * s`, `y = (p.y − c.y / s − H/2) * (−s)`,
with the hard-coded default window constants. -/
noncomputable def fieldPosition (p : Vec2) (camXY : Vec2) (scale : ℝ) : Vec2 :=
  { x := (p.x + camXY.x / scale - DEFAULT_WINDOW_WIDTH / 2) * scale
    y := (p.y - camXY.y / scale - DEFAULT_WINDOW_HEIGHT / 2) * (-scale) }

/-- The tile-rounded world position computed in
`send_resouce_mouse_position`: each coordinate is `(v / TILE_SIZE).round()
* TILE_SIZE`. -/
noncomputable def fieldTileRounded (f : Vec2) : Vec2 :=
  { x := (rustRound (f.x / TILE_SIZE) : ℝ) * TILE_SIZE
    y := (rustRound (f.y / TILE_SIZE) : ℝ) * TILE_SIZE }

/-- The integer tile index computed in `send_resouce_mouse_position`. -/
noncomputable def tileOf (f : Vec2) : ℤ × ℤ :=
  (rustRound (f.x / TILE_SIZE), rustRound (f.y / TILE_SIZE))

/-- The `send_resouce_mouse_position` system.  `cursor` is
`window.cursor_position()` (absent when the pointer is outside the
window), `middlePressed` is `button.pressed(MouseButton::Middle)`, and
`camXY`/`scale` are the camera translation and orthographic scale.  The
drag anchor `field_before_middle_pressed` is refreshed only while the
middle button is not pressed, and all five fields are cleared when the
cursor is absent. -/
noncomputable def send_resouce_mouse_position (cursor : Option Vec2)
    (middlePressed : Bool) (camXY : Vec2) (scale : ℝ)
    (mp : MousePosition) : MousePosition :=
  match cursor with
  | some p =>
    let f := fieldPosition p camXY scale
    { window := some p
      field := some f
      field_tile_rounded := some (fieldTileRounded f)
      field_before_middle_pressed :=
        if middlePressed then mp.field_before_middle_pressed else some f
      tile := some (tileOf f) }
  | none =>
    { window := none
      field := none
      field_tile_rounded := none
      field_before_middle_pressed := none
      tile := none }

/-- A selectable entity: its transform translation (x, y) and the
`Thing` component's `hovered` flag. -/
structure Thing where
  translation : Vec2
  hovered : Bool

/-- The per-entity test inside `is_thing_hovered`: Rust
`((thing_x - half_size)..(thing_x + half_size)).contains(&m.x)` on both
axes.  A Rust `Range` is closed below and open above. -/
noncomputable def hoverTest (m : Vec2) (t : Vec2) : Bool :=
  decide ((t.x - TILE_SIZE / 2 ≤ m.x ∧ m.x < t.x + TILE_SIZE / 2) ∧
    (t.y - TILE_SIZE / 2 ≤ m.y ∧ m.y < t.y + TILE_SIZE / 2))

/-- The `is_thing_hovered` system: when `field_tile_rounded` is absent
the system returns early and every `hovered` flag keeps its previous
value; otherwise every flag is recomputed from the current pointer. -/
noncomputable def is_thing_hovered (ftr : Option Vec2)
    (things : List Thing) : List Thing :=
  match ftr with
  | none => things
  | some m => things.map fun t => { t with hovered := hoverTest m t.translation }

/-- The `select_pawn` system, for one frame.  `leftJustPressed` is the
primary-button edge, `selecters` the identifiers of the live
selection-marker entities, `nextId` a fresh entity identifier.  Returns
the marker list after the frame's deferred despawns/spawns together with
the `Thing` the new marker was attached to, if any.  On a click edge the
system first despawns every marker, then attaches one new marker to the
first hovered thing when one exists. -/
def select_pawn (leftJustPressed : Bool) (things : List Thing)
    (selecters : List ℕ) (nextId : ℕ) : List ℕ × Option Thing :=
  if leftJustPressed then
    match things.find? (fun t => t.hovered) with
    | none => ([], none)
    | some t => ([nextId], some t)
  else (selecters, none)

/-- The pawn state machine of main.rs: `Idle` or `Move(destination)`. -/
inductive PawnState where
  | Idle : PawnState
  | Move : Vec2 → PawnState

/-- Direction of one movement step, as the pair
`(theta.cos(), theta.sin())` for
`theta = (y − dest.y).atan2(x − dest.x) + PI`.
For `(a, b) ≠ (0, 0)` one has `cos (atan2 b a + π) = −a / √(a² + b²)` and
`sin (atan2 b a + π) = −b / √(a² + b²)`, and Rust defines
`atan2 0 0 = 0`, so `theta = π` gives `(−1, 0)` in that corner case. -/
noncomputable def moveDir (tr : Vec3) (dest : Vec2) : ℝ × ℝ :=
  let r := Real.sqrt ((tr.x - dest.x) ^ 2 + (tr.y - dest.y) ^ 2)
  if r = 0 then (-1, 0)
  else ((dest.x - tr.x) / r, (dest.y - tr.y) / r)

/-- Loop body of the `move_pawn` system for one pawn.  The distance test
uses the full 3D distance to `Vec3::new(dest.x, dest.y, 1.0)`.  The
returned boolean records whether the `return` statement ran (the arrival
branch returns from the whole system, not just from this pawn's
iteration). -/
noncomputable def move_pawn_body (dt : ℝ) (st : PawnState) (tr : Vec3) :
    PawnState × Vec3 × Bool :=
  match st with
  | PawnState.Idle => (st, tr, false)
  | PawnState.Move dest =>
    let distance :=
      Real.sqrt ((tr.x - dest.x) ^ 2 + (tr.y - dest.y) ^ 2 + (tr.z - 1) ^ 2)
    if distance < 0.1 then
      (PawnState.Idle, { x := dest.x, y := dest.y, z := 1 }, true)
    else
      let speed := min distance 10 * 10
      let d := moveDir tr dest
      (st,
        { x := tr.x + d.1 * speed * dt
          y := tr.y + d.2 * speed * dt
          z := tr.z },
        false)

/-- The `move_pawn` system over the query's pawn list: each pawn is
stepped in order, but the arrival branch's `return` aborts the whole
loop, leaving the remaining pawns untouched that frame. -/
noncomputable def move_pawn (dt : ℝ) :
    List (PawnState × Vec3) → List (PawnState × Vec3)
  | [] => []
  | (st, tr) :: rest =>
    let r := move_pawn_body dt st tr
    if r.2.2 then (r.1, r.2.1) :: rest
    else (r.1, r.2.1) :: move_pawn dt rest

/-- One pawn's state transition per frame, ignoring the early-return
flag: the per-pawn dynamics of `move_pawn`. -/
noncomputable def pawnStep (dt : ℝ) (s : PawnState × Vec3) : PawnState × Vec3 :=
  ((move_pawn_body dt s.1 s.2).1, (move_pawn_body dt s.1 s.2).2.1)

/-- Planar (x, y) distance from a translation to a destination; for a
pawn with `z = 1` this equals the 3D distance `move_pawn` computes. -/
noncomputable def pdist (tr : Vec3) (dest : Vec2) : ℝ :=
  Real.sqrt ((tr.x - dest.x) ^ 2 + (tr.y - dest.y) ^ 2)

/-- Keyboard state read by `move_camera`: the four directional keys and
left shift. -/
structure Keys where
  w : Bool
  a : Bool
  s : Bool
  d : Bool
  shiftLeft : Bool

/-- The `move_camera` system.  While the middle button is pressed the
camera pans by `field_before_middle_pressed − field` when both are
present (and otherwise does not move); the keyboard branch runs only
when the middle button is not pressed. -/
noncomputable def move_camera (keys : Keys) (mp : MousePosition)
    (middlePressed : Bool) (settings : Settings) (dt : ℝ) (cam : Vec2) : Vec2 :=
  if middlePressed then
    match mp.field, mp.field_before_middle_pressed with
    | some f, some fb => { x := cam.x + (fb.x - f.x), y := cam.y + (fb.y - f.y) }
    | _, _ => cam
  else
    let dist0 : Vec2 :=
      { x := (if keys.a then (-1 : ℝ) else 0) + (if keys.d then 1 else 0)
        y := (if keys.w then (1 : ℝ) else 0) + (if keys.s then -1 else 0) }
    let shift_multiplier : ℝ := if keys.shiftLeft then 10 else 1
    let dist : Vec2 :=
      if dist0.x ^ 2 + dist0.y ^ 2 > 0 then
        { x := dist0.x / Real.sqrt (dist0.x ^ 2 + dist0.y ^ 2)
          y := dist0.y / Real.sqrt (dist0.x ^ 2 + dist0.y ^ 2) }
      else dist0
    { x := cam.x + dist.x * settings.camera_move_speed * shift_multiplier * dt
      y := cam.y + dist.y * settings.camera_move_speed * shift_multiplier * dt }

/-- Scroll unit tag of a bevy `MouseWheel` event. -/
inductive MouseScrollUnit where
  | Line : MouseScrollUnit
  | Pixel : MouseScrollUnit

/-- A bevy `MouseWheel` event: its unit tag and vertical amount. -/
structure MouseWheelEvent where
  unit : MouseScrollUnit
  y : ℝ

/-- The scroll delta computed by `zoom_camera` for one event:
`ev.y * camera_zoom_speed * shift_multiplier * 20.0 * dt`.  The event's
unit tag is never read. -/
noncomputable def zoomChange (ev : MouseWheelEvent) (shiftPressed : Bool)
    (settings : Settings) (dt : ℝ) : ℝ :=
  ev.y * settings.camera_zoom_speed * (if shiftPressed then 10 else 1) * 20 * dt

/-- The `zoom_camera` system for one frame.  `events` is the pending
mouse-wheel event queue; `event_read_scroll.read().next()` consumes only
its head.  The new scale `post_scale = scale − change` is committed only
when `(0.1..10.0).contains(&post_scale)`, a range closed below and open
above; otherwise the scale is left unchanged. -/
noncomputable def zoom_camera (events : List MouseWheelEvent)
    (shiftPressed : Bool) (settings : Settings) (dt : ℝ) (scale : ℝ) : ℝ :=
  match events.head? with
  | none => scale
  | some ev =>
    let change := zoomChange ev shiftPressed settings dt
    let post_scale := scale - change
    if 0.1 ≤ post_scale ∧ post_scale < 10 then scale - change else scale

/-- Inputs of one `zoom_camera` frame: pending events, shift state and
elapsed time. -/
structure ZoomFrame where
  events : List MouseWheelEvent
  shiftPressed : Bool
  dt : ℝ

/-- The camera scale after a sequence of `zoom_camera` frames. -/
noncomputable def zoomSeq (settings : Settings) (frames : List ZoomFrame)
    (scale : ℝ) : ℝ :=
  frames.foldl (fun s fr => zoom_camera fr.events fr.shiftPressed settings fr.dt s) scale

/-- Inputs of one click frame for `select_pawn`: the primary-button
edge, the things with their current hover flags, and the fresh marker
identifier. -/
structure ClickFrame where
  leftJustPressed : Bool
  things : List Thing
  nextId : ℕ

/-- The selection-marker list after a sequence of `select_pawn` frames. -/
def selectSeq (frames : List ClickFrame) (selecters : List ℕ) : List ℕ :=
  frames.foldl (fun sel fr => (select_pawn fr.leftJustPressed fr.things sel fr.nextId).1) selecters

/-- Inputs of one frame of the mouse/camera pipeline. -/
structure CamFrameInput where
  cursor : Option Vec2
  middle : Bool
  keys : Keys
  dt : ℝ

/-- State carried across frames by the mouse/camera pipeline: the
`MousePosition` resource and the camera translation; the orthographic
scale is held fixed here. -/
structure CamState where
  mouse : MousePosition
  cam : Vec2
  scale : ℝ

/-- One frame of the mouse/camera pipeline in the order the data flows:
`send_resouce_mouse_position` first, then `move_camera` reading the
refreshed resource. -/
noncomputable def cameraFrame (settings : Settings) (inp : CamFrameInput)
    (st : CamState) : CamState :=
  let mouse := send_resouce_mouse_position inp.cursor inp.middle st.cam st.scale st.mouse
  { mouse := mouse
    cam := move_camera inp.keys mouse inp.middle settings inp.dt st.cam
    scale := st.scale }

/-- The camera pipeline state after a sequence of frames. -/
noncomputable def cameraSeq (settings : Settings)
    (frames : List CamFrameInput) (st : CamState) : CamState :=
  frames.foldl (fun s fr => cameraFrame settings fr s) st

/-! Helper evaluation lemmas. -/

/-- Evaluate an integer floor from two rational bounds. -/
lemma floor_eval (a : ℝ) (z : ℤ) (h1 : (z : ℝ) ≤ a) (h2 : a < z + 1) : ⌊a⌋ = z :=
  Int.floor_eq_iff.mpr ⟨h1, h2⟩

/-- Rust rounding is the identity on integers. -/
lemma rustRound_intCast (z : ℤ) : rustRound (z : ℝ) = z := by
  unfold rustRound
  by_cases h : (0 : ℝ) ≤ (z : ℝ)
  · rw [if_pos h, floor_eval _ z (by norm_num) (by norm_num)]
  · rw [if_neg h, floor_eval _ (-z) (by push_cast; linarith) (by push_cast; linarith)]
    ring

/-- Evaluate a square root whose argument is a perfect square. -/
lemma sqrt_eval (a b : ℝ) (h : a = b ^ 2) (hb : 0 ≤ b) : Real.sqrt a = b := by
  rw [h, Real.sqrt_sq hb]

/-- Keyboard state with no key pressed. -/
def K0 : Keys := ⟨false, false, false, false, false⟩

/-! Claim theorems. -/

/-- C10: on a frame where the middle mouse button is pressed, the camera
position computed by `move_camera` is independent of the directional
keys and of the shift modifier: the keyboard branch runs only when the
middle button is not pressed, so keyboard pan and drag-pan are mutually
exclusive. -/
theorem move_camera_middle_ignores_keys (keys keys' : Keys)
    (mp : MousePosition) (settings : Settings) (dt : ℝ) (cam : Vec2) :
    move_camera keys mp true settings dt cam =
      move_camera keys' mp true settings dt cam := rfl

/-- C6 counterexample: the code hard-codes a 1600 by 900 window, so with
the camera at the origin and scale 1 the window position (400, 300) maps
to world (-400, 150) and tile (-8, 3), not to world (0, 0) and tile
(0, 0) as the claim's 800 by 600 scenario states. -/
theorem screen_to_world_scenario_counterexample :
    fieldPosition ⟨400, 300⟩ ⟨0, 0⟩ 1 = ⟨-400, 150⟩ ∧
    tileOf (fieldPosition ⟨400, 300⟩ ⟨0, 0⟩ 1) = (-8, 3) ∧
    fieldPosition ⟨400, 300⟩ ⟨0, 0⟩ 1 ≠ ⟨0, 0⟩ := by
  have hf : fieldPosition ⟨400, 300⟩ ⟨0, 0⟩ 1 = ⟨-400, 150⟩ := by
    unfold fieldPosition DEFAULT_WINDOW_WIDTH DEFAULT_WINDOW_HEIGHT
    refine Vec2.ext ?_ ?_ <;> norm_num
  refine ⟨hf, ?_, ?_⟩
  · rw [hf]
    unfold tileOf TILE_SIZE
    have hx : (-400 : ℝ) / 50 = ((-8 : ℤ) : ℝ) := by norm_num
    have hy : (150 : ℝ) / 50 = ((3 : ℤ) : ℝ) := by norm_num
    dsimp only
    rw [hx, hy, rustRound_intCast, rustRound_intCast]
  · rw [hf]
    intro h
    have := congrArg Vec2.x h
    norm_num at this

/-- C6 amended: with the code's fixed 1600 by 900 window, the camera at
the origin and scale 1, window position (800, 450) maps to world (0, 0)
and tile (0, 0), and window position (850, 450) maps to world (50, 0)
and tile (1, 0). -/
theorem screen_to_world_scenario_amended :
    fieldPosition ⟨800, 450⟩ ⟨0, 0⟩ 1 = ⟨0, 0⟩ ∧
    tileOf (fieldPosition ⟨800, 450⟩ ⟨0, 0⟩ 1) = (0, 0) ∧
    fieldPosition ⟨850, 450⟩ ⟨0, 0⟩ 1 = ⟨50, 0⟩ ∧
    tileOf (fieldPosition ⟨850, 450⟩ ⟨0, 0⟩ 1) = (1, 0) := by
  have h1 : fieldPosition ⟨800, 450⟩ ⟨0, 0⟩ 1 = ⟨0, 0⟩ := by
    unfold fieldPosition DEFAULT_WINDOW_WIDTH DEFAULT_WINDOW_HEIGHT
    refine Vec2.ext ?_ ?_ <;> norm_num
  have h2 : fieldPosition ⟨850, 450⟩ ⟨0, 0⟩ 1 = ⟨50, 0⟩ := by
    unfold fieldPosition DEFAULT_WINDOW_WIDTH DEFAULT_WINDOW_HEIGHT
    refine Vec2.ext ?_ ?_ <;> norm_num
  refine ⟨h1, ?_, h2, ?_⟩
  · rw [h1]
    unfold tileOf TILE_SIZE
    have hx : (0 : ℝ) / 50 = ((0 : ℤ) : ℝ) := by norm_num
    dsimp only
    rw [hx, rustRound_intCast]
  · rw [h2]
    unfold tileOf TILE_SIZE
    have hx : (50 : ℝ) / 50 = ((1 : ℤ) : ℝ) := by norm_num
    have hy : (0 : ℝ) / 50 = ((0 : ℤ) : ℝ) := by norm_num
    dsimp only
    rw [hx, hy, rustRound_intCast, rustRound_intCast]

/-- C3 counterexample: with an entity at (25, 0) and the tile-rounded
pointer at (50, 0), the pointer sits exactly on the upper x boundary:
both axis distances are at most `TILE_SIZE / 2`, so the claim's closed
test says hovered, but the code's half-open range test yields false. -/
theorem hover_closed_boundary_counterexample :
    hoverTest ⟨50, 0⟩ ⟨25, 0⟩ = false ∧
    |(50 : ℝ) - 25| ≤ TILE_SIZE / 2 ∧ |(0 : ℝ) - 0| ≤ TILE_SIZE / 2 ∧
    is_thing_hovered (some ⟨50, 0⟩) [⟨⟨25, 0⟩, true⟩] = [⟨⟨25, 0⟩, false⟩] := by
  have hh : hoverTest ⟨50, 0⟩ ⟨25, 0⟩ = false := by
    unfold hoverTest TILE_SIZE
    simp only [decide_eq_false_iff_not]
    norm_num
  refine ⟨hh, by norm_num [TILE_SIZE], by norm_num [TILE_SIZE], ?_⟩
  unfold is_thing_hovered
  simp only [List.map_cons, List.map_nil, hh]

/-- C3 amended: the code's hover flag is boundary-inclusive only on the
lower end of each axis: the flag is true exactly when each axis distance
is at most `TILE_SIZE / 2` and, additionally, the pointer is not exactly
on the upper boundary of either axis (closed below, open above). -/
theorem hover_half_open_boundary (m t : Vec2) :
    hoverTest m t = true ↔
      (|m.x - t.x| ≤ TILE_SIZE / 2 ∧ m.x - t.x ≠ TILE_SIZE / 2) ∧
      (|m.y - t.y| ≤ TILE_SIZE / 2 ∧ m.y - t.y ≠ TILE_SIZE / 2) := by
  unfold hoverTest
  simp only [decide_eq_true_eq, abs_le]
  constructor
  · rintro ⟨⟨hx1, hx2⟩, hy1, hy2⟩
    refine ⟨⟨⟨by linarith, by linarith⟩, fun he => by linarith⟩,
      ⟨⟨by linarith, by linarith⟩, fun he => by linarith⟩⟩
  · rintro ⟨⟨⟨hx1, hx2⟩, hx3⟩, ⟨⟨hy1, hy2⟩, hy3⟩⟩
    have hx4 := lt_of_le_of_ne hx2 hx3
    have hy4 := lt_of_le_of_ne hy2 hy3
    exact ⟨⟨by linarith, by linarith⟩, by linarith, by linarith⟩

/-- C9 counterexample: with two identical line scroll events pending in
one frame, `zoom_camera` produces the same scale as with just the first
one, so the second event contributes no delta (a first event does change
the scale, from 1 to 0.98); and a pixel event produces exactly the same
scale as a line event of the same magnitude, so no line-versus-pixel
scaling exists. -/
theorem zoom_events_counterexample :
    zoom_camera [⟨MouseScrollUnit.Line, 1⟩, ⟨MouseScrollUnit.Line, 1⟩] false
        Settings.standard (1 / 100) 1 =
      zoom_camera [⟨MouseScrollUnit.Line, 1⟩] false Settings.standard (1 / 100) 1 ∧
    zoom_camera [⟨MouseScrollUnit.Line, 1⟩] false Settings.standard (1 / 100) 1 = 0.98 ∧
    zoom_camera [⟨MouseScrollUnit.Pixel, 1⟩] false Settings.standard (1 / 100) 1 =
      zoom_camera [⟨MouseScrollUnit.Line, 1⟩] false Settings.standard (1 / 100) 1 ∧
    zoom_camera [] false Settings.standard (1 / 100) 1 = 1 := by
  have hc : zoomChange ⟨MouseScrollUnit.Line, 1⟩ false Settings.standard (1 / 100) = 0.02 := by
    unfold zoomChange Settings.standard
    norm_num
  refine ⟨rfl, ?_, rfl, rfl⟩
  show (if 0.1 ≤ 1 - zoomChange ⟨MouseScrollUnit.Line, 1⟩ false Settings.standard (1 / 100) ∧
      1 - zoomChange ⟨MouseScrollUnit.Line, 1⟩ false Settings.standard (1 / 100) < 10 then
      1 - zoomChange ⟨MouseScrollUnit.Line, 1⟩ false Settings.standard (1 / 100) else 1) = 0.98
  rw [hc, if_pos (by norm_num)]
  norm_num

/-- C9 amended: only the first pending scroll event of a frame affects
the zoom; later events pending that frame contribute nothing, the delta
of the consumed event is its signed y magnitude times zoom speed, shift
multiplier, the constant 20 and elapsed time, and that delta is
identical for line and pixel events of the same magnitude (the unit tag
is never read, so no line-versus-pixel normalization takes place). -/
theorem zoom_first_event_only (settings : Settings) (ev : MouseWheelEvent)
    (rest : List MouseWheelEvent) (shift : Bool) (dt s y : ℝ)
    (u u' : MouseScrollUnit) :
    zoom_camera (ev :: rest) shift settings dt s =
      zoom_camera [ev] shift settings dt s ∧
    zoom_camera [⟨u, y⟩] shift settings dt s =
      zoom_camera [⟨u', y⟩] shift settings dt s ∧
    zoomChange ev shift settings dt =
      ev.y * settings.camera_zoom_speed * (if shift then 10 else 1) * 20 * dt :=
  ⟨rfl, rfl, rfl⟩

/-- One `zoom_camera` call keeps the scale inside the half-open interval
from 0.1 (inclusive) to 10 (exclusive). -/
lemma zoom_camera_stays (settings : Settings) (events : List MouseWheelEvent)
    (shift : Bool) (dt s : ℝ) (h1 : 0.1 ≤ s) (h2 : s < 10) :
    0.1 ≤ zoom_camera events shift settings dt s ∧
      zoom_camera events shift settings dt s < 10 := by
  cases events with
  | nil => exact ⟨h1, h2⟩
  | cons ev rest =>
    show 0.1 ≤ (if 0.1 ≤ s - zoomChange ev shift settings dt ∧
        s - zoomChange ev shift settings dt < 10 then
        s - zoomChange ev shift settings dt else s) ∧
      (if 0.1 ≤ s - zoomChange ev shift settings dt ∧
        s - zoomChange ev shift settings dt < 10 then
        s - zoomChange ev shift settings dt else s) < 10
    split_ifs with hc
    · exact hc
    · exact ⟨h1, h2⟩

/-- The half-open invariant is preserved by any sequence of zoom frames. -/
lemma zoomSeq_stays (settings : Settings) (frames : List ZoomFrame) :
    ∀ s : ℝ, 0.1 ≤ s → s < 10 →
      0.1 ≤ zoomSeq settings frames s ∧ zoomSeq settings frames s < 10 := by
  induction frames with
  | nil => exact fun s h1 h2 => ⟨h1, h2⟩
  | cons fr rest ih =>
    intro s h1 h2
    have h := zoom_camera_stays settings fr.events fr.shiftPressed fr.dt s h1 h2
    exact ih _ h.1 h.2

/-- C1 counterexample: starting from scale 1 (inside the exclusive range),
a single scroll event of magnitude 0.45 at dt = 1 gives a delta of 0.9
and a prospective scale of exactly 0.1; the code's half-open range test
`(0.1..10.0).contains` accepts it, so the committed scale 0.1 has left
the exclusive range (0.1, 10.0), instead of the delta being rejected. -/
theorem zoom_exclusive_range_counterexample :
    zoom_camera [⟨MouseScrollUnit.Line, 0.45⟩] false Settings.standard 1 1 = 0.1 ∧
    (0.1 < (1 : ℝ) ∧ (1 : ℝ) < 10) ∧ ¬ (0.1 < (0.1 : ℝ) ∧ (0.1 : ℝ) < 10) := by
  have hc : zoomChange ⟨MouseScrollUnit.Line, 0.45⟩ false Settings.standard 1 = 0.9 := by
    unfold zoomChange Settings.standard
    norm_num
  refine ⟨?_, by norm_num, by norm_num⟩
  show (if 0.1 ≤ 1 - zoomChange ⟨MouseScrollUnit.Line, 0.45⟩ false Settings.standard 1 ∧
      1 - zoomChange ⟨MouseScrollUnit.Line, 0.45⟩ false Settings.standard 1 < 10 then
      1 - zoomChange ⟨MouseScrollUnit.Line, 0.45⟩ false Settings.standard 1 else 1) = 0.1
  rw [hc, if_pos (by norm_num)]
  norm_num

/-- C1 amended: for any sequence of scroll frames, a scale starting in
the half-open interval from 0.1 inclusive to 10 exclusive never leaves
that interval (so the lower boundary itself is reachable); whenever the
prospective new scale would exit the half-open interval the delta is
fully rejected and the scale is unchanged that frame, never truncated to
a boundary. -/
theorem zoom_half_open_clamp (settings : Settings) (frames : List ZoomFrame)
    (s0 : ℝ) (h1 : 0.1 ≤ s0) (h2 : s0 < 10) :
    (0.1 ≤ zoomSeq settings frames s0 ∧ zoomSeq settings frames s0 < 10) ∧
    (∀ (ev : MouseWheelEvent) (rest : List MouseWheelEvent) (shift : Bool) (dt s : ℝ),
      ¬ (0.1 ≤ s - zoomChange ev shift settings dt ∧
          s - zoomChange ev shift settings dt < 10) →
      zoom_camera (ev :: rest) shift settings dt s = s) := by
  refine ⟨zoomSeq_stays settings frames s0 h1 h2, ?_⟩
  intro ev rest shift dt s hrej
  show (if 0.1 ≤ s - zoomChange ev shift settings dt ∧
      s - zoomChange ev shift settings dt < 10 then
      s - zoomChange ev shift settings dt else s) = s
  rw [if_neg hrej]

/-- C1 witness: the amended clamp theorem applied to the standard
settings, the empty frame list and initial scale 1. -/
theorem zoom_half_open_clamp_witness :
    ((0.1 : ℝ) ≤ 1 ∧ (1 : ℝ) < 10) ∧
    (0.1 ≤ zoomSeq Settings.standard [] 1 ∧ zoomSeq Settings.standard [] 1 < 10) :=
  ⟨⟨by norm_num, by norm_num⟩,
    (zoom_half_open_clamp Settings.standard [] 1 (by norm_num) (by norm_num)).1⟩

/-- One `select_pawn` frame leaves at most one selection marker when at
most one existed before. -/
lemma select_pawn_length_le (clicked : Bool) (things : List Thing)
    (sel : List ℕ) (n : ℕ) (h : sel.length ≤ 1) :
    (select_pawn clicked things sel n).1.length ≤ 1 := by
  unfold select_pawn
  cases clicked with
  | false => exact h
  | true =>
    cases hf : things.find? (fun t => t.hovered) with
    | none => simp [hf]
    | some t => simp [hf]

/-- Marker count stays at most one across any sequence of click frames. -/
lemma selectSeq_length_le (frames : List ClickFrame) :
    ∀ sel : List ℕ, sel.length ≤ 1 → (selectSeq frames sel).length ≤ 1 := by
  induction frames with
  | nil => exact fun sel h => h
  | cons fr rest ih =>
    intro sel h
    exact ih _ (select_pawn_length_le fr.leftJustPressed fr.things sel fr.nextId h)

/-- C5: starting with no marker, after any sequence of primary-click
edges at most one selection-marker entity exists; on a click edge with
an empty hover set every existing marker is destroyed and none is
created, and with a non-empty hover set exactly one marker exists
afterwards, so duplicate markers never occur. -/
theorem single_selection_marker (frames : List ClickFrame)
    (things : List Thing) (sel : List ℕ) (n : ℕ) :
    (selectSeq frames []).length ≤ 1 ∧
    (things.find? (fun t => t.hovered) = none →
      (select_pawn true things sel n).1 = []) ∧
    (∀ t : Thing, things.find? (fun t => t.hovered) = some t →
      (select_pawn true things sel n).1 = [n]) := by
  refine ⟨selectSeq_length_le frames [] (by simp), ?_, ?_⟩
  · intro h
    unfold select_pawn
    simp [h]
  · intro t h
    unfold select_pawn
    simp [h]

/-- C5 witness: the single-marker theorem at a concrete click sequence
with one hovered thing, with the empty-hover implication discharged on
the empty thing list. -/
theorem single_selection_marker_witness :
    (selectSeq [⟨true, [⟨⟨0, 0⟩, true⟩], 4⟩] []).length ≤ 1 ∧
    (select_pawn true ([] : List Thing) [5] 9).1 = [] ∧
    (select_pawn true [⟨⟨0, 0⟩, true⟩] [5] 9).1 = [9] :=
  ⟨(single_selection_marker [⟨true, [⟨⟨0, 0⟩, true⟩], 4⟩] [] [5] 9).1,
    (single_selection_marker [] [] [5] 9).2.1 rfl,
    (single_selection_marker [] [⟨⟨0, 0⟩, true⟩] [5] 9).2.2 ⟨⟨0, 0⟩, true⟩ rfl⟩

/-- C4 counterexample: on a frame where the pointer is outside the
window, `is_thing_hovered` returns early and a thing hovered on the last
in-window frame keeps `hovered = true`; a primary click on that same
frame then selects that thing and creates a marker, so the claim that
hovered flags are not stale and that such a click selects nothing is
false. -/
theorem absent_pointer_stale_counterexample :
    is_thing_hovered none [⟨⟨0, 0⟩, true⟩] = [⟨⟨0, 0⟩, true⟩] ∧
    (select_pawn true [⟨⟨0, 0⟩, true⟩] [] 0).2 = some ⟨⟨0, 0⟩, true⟩ ∧
    (select_pawn true [⟨⟨0, 0⟩, true⟩] [] 0).1 = [0] :=
  ⟨rfl, rfl, rfl⟩

/-- C4 amended: when the pointer is outside the window every field of
the mouse-position resource becomes absent, but the hover system then
performs no mutation at all, so hover flags retain the values from the
last in-window frame; a primary click on such a frame still reads those
retained flags and selects the first thing whose flag is still set. -/
theorem absent_pointer_fields_and_stale_hover (middlePressed : Bool)
    (camXY : Vec2) (scale : ℝ) (mp : MousePosition) (things : List Thing)
    (t : Thing) (ts : List Thing) (sel : List ℕ) (n : ℕ) :
    send_resouce_mouse_position none middlePressed camXY scale mp =
      ⟨none, none, none, none, none⟩ ∧
    is_thing_hovered none things = things ∧
    (t.hovered = true →
      (select_pawn true (t :: ts) sel n).2 = some t ∧
      (select_pawn true (t :: ts) sel n).1 = [n]) := by
  refine ⟨rfl, rfl, fun h => ?_⟩
  unfold select_pawn
  rw [List.find?_cons_of_pos _ h]
  exact ⟨rfl, rfl⟩

/-- C4 witness: the amended theorem at a concrete absent-pointer frame
with one thing whose retained hover flag is set. -/
theorem absent_pointer_fields_and_stale_hover_witness :
    send_resouce_mouse_position none true ⟨0, 0⟩ 1
        ⟨some ⟨0, 0⟩, some ⟨0, 0⟩, some ⟨0, 0⟩, some ⟨0, 0⟩, some (0, 0)⟩ =
      ⟨none, none, none, none, none⟩ ∧
    is_thing_hovered none [⟨⟨3, 4⟩, true⟩] = [⟨⟨3, 4⟩, true⟩] ∧
    ((⟨⟨3, 4⟩, true⟩ : Thing).hovered = true →
      (select_pawn true [⟨⟨3, 4⟩, true⟩] [] 7).2 = some ⟨⟨3, 4⟩, true⟩ ∧
      (select_pawn true [⟨⟨3, 4⟩, true⟩] [] 7).1 = [7]) :=
  absent_pointer_fields_and_stale_hover true ⟨0, 0⟩ 1
    ⟨some ⟨0, 0⟩, some ⟨0, 0⟩, some ⟨0, 0⟩, some ⟨0, 0⟩, some (0, 0)⟩
    [⟨⟨3, 4⟩, true⟩] ⟨⟨3, 4⟩, true⟩ [] [] 7

/-! Drag-pan scenario: press the middle button inside the window, leave
the window mid-drag, come back still holding, and move the pointer. -/

/-- The mouse-position resource with every field absent. -/
def mpNone : MousePosition := ⟨none, none, none, none, none⟩

/-- Initial camera-pipeline state of the drag scenario. -/
def dragStart : CamState := ⟨mpNone, ⟨0, 0⟩, 1⟩

/-- Frame 1: pointer at (800, 450), middle button not pressed. -/
def dragF1 : CamFrameInput := ⟨some ⟨800, 450⟩, false, K0, 1⟩

/-- Frame 2: pointer moved to (900, 450), middle button pressed. -/
def dragF2 : CamFrameInput := ⟨some ⟨900, 450⟩, true, K0, 1⟩

/-- Frame 3: pointer left the window, middle button still pressed. -/
def dragF3 : CamFrameInput := ⟨none, true, K0, 1⟩

/-- Frame 4: pointer back at (900, 450), middle button still pressed. -/
def dragF4 : CamFrameInput := ⟨some ⟨900, 450⟩, true, K0, 1⟩

/-- Frame 5: pointer moved to (1000, 450), middle button still pressed. -/
def dragF5 : CamFrameInput := ⟨some ⟨1000, 450⟩, true, K0, 1⟩

/-- With no key pressed the keyboard branch of `move_camera` leaves the
camera unchanged. -/
lemma move_camera_no_keys (mp : MousePosition) (settings : Settings)
    (dt : ℝ) (cam : Vec2) : move_camera K0 mp false settings dt cam = cam := by
  unfold move_camera K0
  dsimp only
  norm_num

/-- The drag branch of `move_camera` when both the current and the
anchored world positions are present. -/
lemma move_camera_drag (keys : Keys) (mp : MousePosition) (settings : Settings)
    (dt : ℝ) (cam f fb : Vec2) (hf : mp.field = some f)
    (hfb : mp.field_before_middle_pressed = some fb) :
    move_camera keys mp true settings dt cam =
      ⟨cam.x + (fb.x - f.x), cam.y + (fb.y - f.y)⟩ := by
  unfold move_camera
  rw [hf, hfb]
  rfl

/-- The drag branch of `move_camera` does nothing when the anchor is
absent. -/
lemma move_camera_drag_no_anchor (keys : Keys) (mp : MousePosition)
    (settings : Settings) (dt : ℝ) (cam : Vec2)
    (hfb : mp.field_before_middle_pressed = none) :
    move_camera keys mp true settings dt cam = cam := by
  unfold move_camera
  rw [hfb]
  cases mp.field <;> rfl

/-- Tile rounding evaluated at integer tile ratios. -/
lemma fieldTileRounded_eval (f : Vec2) (a b : ℤ) (ha : f.x / TILE_SIZE = (a : ℝ))
    (hb : f.y / TILE_SIZE = (b : ℝ)) :
    fieldTileRounded f = ⟨(a : ℝ) * TILE_SIZE, (b : ℝ) * TILE_SIZE⟩ ∧
    tileOf f = (a, b) := by
  unfold fieldTileRounded tileOf
  rw [ha, hb, rustRound_intCast, rustRound_intCast]
  exact ⟨rfl, rfl⟩

/-- C7 counterexample: a drag is in progress (frame 2 pans the camera by
(-100, 0)); the pointer leaves the window on frame 3 (pan suspended,
camera unchanged) and returns on frames 4 and 5 with the middle button
still held and the pointer moving 100 pixels, yet the camera never moves
again: the anchor was cleared on exit and is only re-captured while the
middle button is not pressed, so drag-pan does not resume. -/
theorem drag_pan_no_resume_counterexample :
    (cameraSeq Settings.standard [dragF1, dragF2] dragStart).cam = ⟨-100, 0⟩ ∧
    (cameraSeq Settings.standard [dragF1, dragF2, dragF3] dragStart).cam = ⟨-100, 0⟩ ∧
    (cameraSeq Settings.standard [dragF1, dragF2, dragF3, dragF4] dragStart).cam = ⟨-100, 0⟩ ∧
    (cameraSeq Settings.standard [dragF1, dragF2, dragF3, dragF4] dragStart).mouse.field =
      some ⟨0, 0⟩ ∧
    (cameraSeq Settings.standard [dragF1, dragF2, dragF3, dragF4, dragF5] dragStart).cam =
      ⟨-100, 0⟩ ∧
    (cameraSeq Settings.standard [dragF1, dragF2, dragF3, dragF4, dragF5] dragStart).mouse.field =
      some ⟨100, 0⟩ := by
  have hfp1 : fieldPosition ⟨800, 450⟩ ⟨0, 0⟩ 1 = ⟨0, 0⟩ := by
    unfold fieldPosition DEFAULT_WINDOW_WIDTH DEFAULT_WINDOW_HEIGHT
    exact Vec2.ext (by norm_num) (by norm_num)
  have hfp2 : fieldPosition ⟨900, 450⟩ ⟨0, 0⟩ 1 = ⟨100, 0⟩ := by
    unfold fieldPosition DEFAULT_WINDOW_WIDTH DEFAULT_WINDOW_HEIGHT
    exact Vec2.ext (by norm_num) (by norm_num)
  have hfp4 : fieldPosition ⟨900, 450⟩ ⟨-100, 0⟩ 1 = ⟨0, 0⟩ := by
    unfold fieldPosition DEFAULT_WINDOW_WIDTH DEFAULT_WINDOW_HEIGHT
    exact Vec2.ext (by norm_num) (by norm_num)
  have hfp5 : fieldPosition ⟨1000, 450⟩ ⟨-100, 0⟩ 1 = ⟨100, 0⟩ := by
    unfold fieldPosition DEFAULT_WINDOW_WIDTH DEFAULT_WINDOW_HEIGHT
    exact Vec2.ext (by norm_num) (by norm_num)
  have ht0 := fieldTileRounded_eval ⟨0, 0⟩ 0 0 (by norm_num [TILE_SIZE]) (by norm_num [TILE_SIZE])
  have ht1 := fieldTileRounded_eval ⟨100, 0⟩ 2 0 (by norm_num [TILE_SIZE]) (by norm_num [TILE_SIZE])
  have ht0f : fieldTileRounded ⟨0, 0⟩ = ⟨0, 0⟩ := by
    rw [ht0.1]
    exact Vec2.ext (by norm_num [TILE_SIZE]) (by norm_num [TILE_SIZE])
  have ht1f : fieldTileRounded ⟨100, 0⟩ = ⟨100, 0⟩ := by
    rw [ht1.1]
    exact Vec2.ext (by norm_num [TILE_SIZE]) (by norm_num [TILE_SIZE])
  have e1 : cameraFrame Settings.standard dragF1 dragStart =
      ⟨⟨some ⟨800, 450⟩, some ⟨0, 0⟩, some ⟨0, 0⟩, some ⟨0, 0⟩, some (0, 0)⟩, ⟨0, 0⟩, 1⟩ := by
    simp only [cameraFrame, dragF1, dragStart, mpNone, send_resouce_mouse_position,
      hfp1, ht0f, ht0.2]
    rw [move_camera_no_keys]
    simp
  have e2 : cameraFrame Settings.standard dragF2
      ⟨⟨some ⟨800, 450⟩, some ⟨0, 0⟩, some ⟨0, 0⟩, some ⟨0, 0⟩, some (0, 0)⟩, ⟨0, 0⟩, 1⟩ =
      ⟨⟨some ⟨900, 450⟩, some ⟨100, 0⟩, some ⟨100, 0⟩, some ⟨0, 0⟩, some (2, 0)⟩, ⟨-100, 0⟩, 1⟩ := by
    simp only [cameraFrame, dragF2, send_resouce_mouse_position, hfp2, ht1f, ht1.2]
    rw [move_camera_drag K0 _ Settings.standard 1 ⟨0, 0⟩ ⟨100, 0⟩ ⟨0, 0⟩ rfl rfl]
    norm_num
  have e3 : cameraFrame Settings.standard dragF3
      ⟨⟨some ⟨900, 450⟩, some ⟨100, 0⟩, some ⟨100, 0⟩, some ⟨0, 0⟩, some (2, 0)⟩, ⟨-100, 0⟩, 1⟩ =
      ⟨mpNone, ⟨-100, 0⟩, 1⟩ := rfl
  have e4 : cameraFrame Settings.standard dragF4 ⟨mpNone, ⟨-100, 0⟩, 1⟩ =
      ⟨⟨some ⟨900, 450⟩, some ⟨0, 0⟩, some ⟨0, 0⟩, none, some (0, 0)⟩, ⟨-100, 0⟩, 1⟩ := by
    simp only [cameraFrame, dragF4, mpNone, send_resouce_mouse_position, hfp4, ht0f, ht0.2]
    rw [move_camera_drag_no_anchor K0 _ Settings.standard 1 ⟨-100, 0⟩ rfl]
    simp
  have e5 : cameraFrame Settings.standard dragF5
      ⟨⟨some ⟨900, 450⟩, some ⟨0, 0⟩, some ⟨0, 0⟩, none, some (0, 0)⟩, ⟨-100, 0⟩, 1⟩ =
      ⟨⟨some ⟨1000, 450⟩, some ⟨100, 0⟩, some ⟨100, 0⟩, none, some (2, 0)⟩, ⟨-100, 0⟩, 1⟩ := by
    simp only [cameraFrame, dragF5, send_resouce_mouse_position, hfp5, ht1f, ht1.2]
    rw [move_camera_drag_no_anchor K0 _ Settings.standard 1 ⟨-100, 0⟩ rfl]
    simp
  refine ⟨?_, ?_, ?_, ?_, ?_, ?_⟩ <;>
    simp only [cameraSeq, List.foldl_cons, List.foldl_nil, e1, e2, e3, e4, e5]

/-- One held-middle frame with an absent anchor leaves the camera in
place and the anchor absent. -/
lemma held_no_anchor_frame (settings : Settings) (fr : CamFrameInput)
    (st : CamState) (hmid : fr.middle = true)
    (hanch : st.mouse.field_before_middle_pressed = none) :
    (cameraFrame settings fr st).cam = st.cam ∧
    (cameraFrame settings fr st).mouse.field_before_middle_pressed = none := by
  obtain ⟨cursor, mid, keys, dt⟩ := fr
  dsimp only at hmid
  subst hmid
  cases cursor with
  | none => exact ⟨rfl, rfl⟩
  | some p =>
    constructor
    · exact move_camera_drag_no_anchor keys _ settings dt st.cam hanch
    · exact hanch

/-- While the middle button stays held, an absent anchor never comes
back and the camera never moves, over any frame sequence. -/
lemma held_no_anchor_seq (settings : Settings) :
    ∀ (frames : List CamFrameInput) (st : CamState),
      st.mouse.field_before_middle_pressed = none →
      (∀ fr ∈ frames, fr.middle = true) →
      (cameraSeq settings frames st).cam = st.cam ∧
      (cameraSeq settings frames st).mouse.field_before_middle_pressed = none := by
  intro frames
  induction frames with
  | nil => exact fun st h _ => ⟨rfl, h⟩
  | cons fr rest ih =>
    intro st hanch hall
    have h1 := held_no_anchor_frame settings fr st (hall fr (by simp)) hanch
    have h2 := ih (cameraFrame settings fr st) h1.2 (fun g hg => hall g (by simp [hg]))
    exact ⟨h2.1.trans h1.1, h2.2⟩

/-- C7 amended: if the pointer leaves the window while the middle button
is held, drag-pan is suspended (the frame applies no pan delta) and the
drag anchor is cleared; because the anchor is re-captured only on frames
where the middle button is not pressed, drag-pan does not resume when
the pointer returns while the button is still held: over any further
frame sequence with the button held, the camera stays where it is. -/
theorem drag_pan_suspend_no_resume (settings : Settings) (keys : Keys)
    (dt : ℝ) (stAny st : CamState) (frames : List CamFrameInput)
    (hanch : st.mouse.field_before_middle_pressed = none)
    (hall : ∀ fr ∈ frames, fr.middle = true) :
    ((cameraFrame settings ⟨none, true, keys, dt⟩ stAny).cam = stAny.cam ∧
     (cameraFrame settings ⟨none, true, keys, dt⟩ stAny).mouse.field_before_middle_pressed =
       none) ∧
    (cameraSeq settings frames st).cam = st.cam :=
  ⟨⟨rfl, rfl⟩, (held_no_anchor_seq settings frames st hanch hall).1⟩

/-- C7 witness: the amended theorem at the drag scenario's initial state
and a single returned-pointer frame with the middle button held. -/
theorem drag_pan_suspend_no_resume_witness :
    ((cameraFrame Settings.standard ⟨none, true, K0, 1⟩ dragStart).cam = dragStart.cam ∧
     (cameraFrame Settings.standard ⟨none, true, K0, 1⟩ dragStart).mouse.field_before_middle_pressed =
       none) ∧
    (cameraSeq Settings.standard [⟨some ⟨0, 0⟩, true, K0, 1⟩] dragStart).cam = dragStart.cam :=
  drag_pan_suspend_no_resume Settings.standard K0 1 dragStart dragStart
    [⟨some ⟨0, 0⟩, true, K0, 1⟩] rfl
    (fun fr hfr => by
      rw [List.mem_singleton] at hfr
      subst hfr
      rfl)

/-! Pawn movement lemmas. -/

/-- Planar distance is nonnegative. -/
lemma pdist_nonneg (tr : Vec3) (dest : Vec2) : 0 ≤ pdist tr dest :=
  Real.sqrt_nonneg _

/-- Planar distance from the snapped position to the destination is zero. -/
lemma pdist_self (dest : Vec2) : pdist ⟨dest.x, dest.y, 1⟩ dest = 0 := by
  unfold pdist
  dsimp only
  rw [show (dest.x - dest.x) ^ 2 + (dest.y - dest.y) ^ 2 = (0 : ℝ) by ring]
  exact Real.sqrt_zero

/-- For a pawn at height `z = 1` the 3D distance `move_pawn` computes
equals the planar distance. -/
lemma dist3_eq_pdist (tr : Vec3) (dest : Vec2) (hz : tr.z = 1) :
    Real.sqrt ((tr.x - dest.x) ^ 2 + (tr.y - dest.y) ^ 2 + (tr.z - 1) ^ 2) =
      pdist tr dest := by
  unfold pdist
  rw [hz]
  norm_num

/-- The movement direction as the normalized vector toward the
destination, away from the degenerate case. -/
lemma moveDir_eq (tr : Vec3) (dest : Vec2) (h : pdist tr dest ≠ 0) :
    moveDir tr dest =
      ((dest.x - tr.x) / pdist tr dest, (dest.y - tr.y) / pdist tr dest) := by
  unfold pdist at h ⊢
  unfold moveDir
  rw [if_neg h]

/-- An idle pawn is left untouched by the loop body. -/
lemma move_pawn_body_idle (dt : ℝ) (tr : Vec3) :
    move_pawn_body dt PawnState.Idle tr = (PawnState.Idle, tr, false) := rfl

/-- Arrival branch of the loop body: inside the epsilon the pawn snaps
exactly to the destination, goes idle, and triggers the early return. -/
lemma move_pawn_body_snap (dt : ℝ) (dest : Vec2) (tr : Vec3) (hz : tr.z = 1)
    (h : pdist tr dest < 0.1) :
    move_pawn_body dt (PawnState.Move dest) tr =
      (PawnState.Idle, ⟨dest.x, dest.y, 1⟩, true) := by
  simp only [move_pawn_body]
  rw [dist3_eq_pdist tr dest hz, if_pos h]

/-- Advance branch of the loop body: outside the epsilon the pawn moves
along the direction to the destination with speed `min d 10 * 10`. -/
lemma move_pawn_body_advance (dt : ℝ) (dest : Vec2) (tr : Vec3) (hz : tr.z = 1)
    (h : ¬ pdist tr dest < 0.1) :
    move_pawn_body dt (PawnState.Move dest) tr =
      (PawnState.Move dest,
        ⟨tr.x + (moveDir tr dest).1 * (min (pdist tr dest) 10 * 10) * dt,
         tr.y + (moveDir tr dest).2 * (min (pdist tr dest) 10 * 10) * dt,
         tr.z⟩, false) := by
  simp only [move_pawn_body]
  rw [dist3_eq_pdist tr dest hz, if_neg h]

/-- C8: the arrival branch ends with `return`, not `continue`: when the
first pawn of the query is within the arrival epsilon it snaps to its
target and goes idle, and the second pawn — still in `Move` state with a
far target — is not stepped at all that frame, although stepped alone
with the same elapsed time it would advance by 100 world units. -/
theorem move_pawn_early_return_divergence :
    move_pawn 1 [(PawnState.Move ⟨0, 0⟩, ⟨0.05, 0, 1⟩),
                 (PawnState.Move ⟨100, 0⟩, ⟨0, 0, 1⟩)] =
      [(PawnState.Idle, ⟨0, 0, 1⟩), (PawnState.Move ⟨100, 0⟩, ⟨0, 0, 1⟩)] ∧
    move_pawn 1 [(PawnState.Move ⟨100, 0⟩, ⟨0, 0, 1⟩)] =
      [(PawnState.Move ⟨100, 0⟩, ⟨100, 0, 1⟩)] := by
  have hp1 : pdist ⟨0.05, 0, 1⟩ (⟨0, 0⟩ : Vec2) = 0.05 := by
    unfold pdist
    exact sqrt_eval _ _ (by norm_num) (by norm_num)
  have hp2 : pdist ⟨0, 0, 1⟩ (⟨100, 0⟩ : Vec2) = 100 := by
    unfold pdist
    exact sqrt_eval _ _ (by norm_num) (by norm_num)
  have hb1 : move_pawn_body 1 (PawnState.Move ⟨0, 0⟩) ⟨0.05, 0, 1⟩ =
      (PawnState.Idle, ⟨0, 0, 1⟩, true) := by
    have h := move_pawn_body_snap 1 ⟨0, 0⟩ ⟨0.05, 0, 1⟩ rfl (by rw [hp1]; norm_num)
    exact h
  have hdir : moveDir ⟨0, 0, 1⟩ (⟨100, 0⟩ : Vec2) = (1, 0) := by
    rw [moveDir_eq _ _ (by rw [hp2]; norm_num), hp2]
    dsimp only
    norm_num
  have hb2 : move_pawn_body 1 (PawnState.Move ⟨100, 0⟩) ⟨0, 0, 1⟩ =
      (PawnState.Move ⟨100, 0⟩, ⟨100, 0, 1⟩, false) := by
    rw [move_pawn_body_advance 1 ⟨100, 0⟩ ⟨0, 0, 1⟩ rfl (by rw [hp2]; norm_num),
      hdir, hp2]
    dsimp only
    norm_num
  constructor
  · show (let r := move_pawn_body 1 (PawnState.Move ⟨0, 0⟩) ⟨0.05, 0, 1⟩
      if r.2.2 then (r.1, r.2.1) :: [(PawnState.Move ⟨100, 0⟩, ⟨0, 0, 1⟩)]
      else (r.1, r.2.1) :: move_pawn 1 [(PawnState.Move ⟨100, 0⟩, ⟨0, 0, 1⟩)]) = _
    rw [hb1]
    rfl
  · show (let r := move_pawn_body 1 (PawnState.Move ⟨100, 0⟩) ⟨0, 0, 1⟩
      if r.2.2 then (r.1, r.2.1) :: [] else (r.1, r.2.1) :: move_pawn 1 []) = _
    rw [hb2]
    rfl

/-- Iterated per-pawn stepping of `move_pawn` with a fixed elapsed time
per frame. -/
noncomputable def pawnIter (dt : ℝ) : ℕ → (PawnState × Vec3) → PawnState × Vec3
  | 0, s => s
  | n + 1, s => pawnStep dt (pawnIter dt n s)

/-- Unfolding one iteration. -/
lemma pawnIter_succ (dt : ℝ) (n : ℕ) (s : PawnState × Vec3) :
    pawnIter dt (n + 1) s = pawnStep dt (pawnIter dt n s) := rfl

/-- Iteration composes additively. -/
lemma pawnIter_add (dt : ℝ) (m k : ℕ) (s : PawnState × Vec3) :
    pawnIter dt m (pawnIter dt k s) = pawnIter dt (m + k) s := by
  induction m with
  | zero => rw [Nat.zero_add]; rfl
  | succ m ih =>
    show pawnStep dt (pawnIter dt m (pawnIter dt k s)) = pawnIter dt (m + 1 + k) s
    rw [ih, show m + 1 + k = (m + k) + 1 from by omega]
    rfl

/-- C2 counterexample: a pawn at the origin moving to (5, 0) and stepped
with elapsed time 1 second moves to (50, 0): the step length
`min(d, 10) * 10 * dt = 50` far exceeds the distance 5, so the pawn
overshoots past its target and its distance to the target grows from 5
to 45 — refuting both the no-overshoot and the convergence parts of the
claim for arbitrary positive elapsed times. -/
theorem move_pawn_overshoot_counterexample :
    pawnStep 1 (PawnState.Move ⟨5, 0⟩, ⟨0, 0, 1⟩) =
      (PawnState.Move ⟨5, 0⟩, ⟨50, 0, 1⟩) ∧
    pdist ⟨0, 0, 1⟩ ⟨5, 0⟩ = 5 ∧ pdist ⟨50, 0, 1⟩ ⟨5, 0⟩ = 45 ∧
    ¬ pdist ⟨50, 0, 1⟩ ⟨5, 0⟩ ≤ pdist ⟨0, 0, 1⟩ ⟨5, 0⟩ := by
  have hp : pdist ⟨0, 0, 1⟩ (⟨5, 0⟩ : Vec2) = 5 := by
    unfold pdist
    exact sqrt_eval _ _ (by norm_num) (by norm_num)
  have hp' : pdist ⟨50, 0, 1⟩ (⟨5, 0⟩ : Vec2) = 45 := by
    unfold pdist
    exact sqrt_eval _ _ (by norm_num) (by norm_num)
  have hdir : moveDir ⟨0, 0, 1⟩ (⟨5, 0⟩ : Vec2) = (1, 0) := by
    rw [moveDir_eq _ _ (by rw [hp]; norm_num), hp]
    dsimp only
    norm_num
  have hb : move_pawn_body 1 (PawnState.Move ⟨5, 0⟩) ⟨0, 0, 1⟩ =
      (PawnState.Move ⟨5, 0⟩, ⟨50, 0, 1⟩, false) := by
    rw [move_pawn_body_advance 1 ⟨5, 0⟩ ⟨0, 0, 1⟩ rfl (by rw [hp]; norm_num), hdir, hp]
    dsimp only
    rw [show min (5 : ℝ) 10 = 5 from min_eq_left (by norm_num)]
    norm_num
  refine ⟨?_, hp, hp', by rw [hp, hp']; norm_num⟩
  show ((move_pawn_body 1 (PawnState.Move ⟨5, 0⟩) ⟨0, 0, 1⟩).1,
    (move_pawn_body 1 (PawnState.Move ⟨5, 0⟩) ⟨0, 0, 1⟩).2.1) = _
  rw [hb]

/-- New planar distance after one advance step: the step subtracts
exactly `min d 10 * 10 * dt` from the distance when `dt ≤ 1/10`. -/
lemma pdist_after_advance (dt : ℝ) (dest : Vec2) (tr : Vec3)
    (hd : 0.1 ≤ pdist tr dest) (_hdt0 : 0 < dt) (hdt1 : dt ≤ 1 / 10) :
    pdist ⟨tr.x + (moveDir tr dest).1 * (min (pdist tr dest) 10 * 10) * dt,
           tr.y + (moveDir tr dest).2 * (min (pdist tr dest) 10 * 10) * dt,
           tr.z⟩ dest =
      pdist tr dest - min (pdist tr dest) 10 * 10 * dt := by
  have hd0 : (0 : ℝ) < pdist tr dest := lt_of_lt_of_le (by norm_num) hd
  have hdne : pdist tr dest ≠ 0 := ne_of_gt hd0
  have hmin0 : (0 : ℝ) ≤ min (pdist tr dest) 10 := le_min hd0.le (by norm_num)
  have hc1 : min (pdist tr dest) 10 * 10 * dt ≤ pdist tr dest := by
    have h1 : min (pdist tr dest) 10 * (10 * dt) ≤ min (pdist tr dest) 10 * 1 :=
      mul_le_mul_of_nonneg_left (by linarith) hmin0
    have h2 : min (pdist tr dest) 10 ≤ pdist tr dest := min_le_left _ _
    nlinarith [h1, h2]
  rw [moveDir_eq tr dest hdne]
  set d := pdist tr dest with hdd
  have hc2 : 0 ≤ 1 - min d 10 * 10 * dt / d := by
    rw [sub_nonneg, div_le_one hd0]
    exact hc1
  show Real.sqrt _ = _
  have hx : tr.x + (dest.x - tr.x) / d * (min d 10 * 10) * dt - dest.x =
      (tr.x - dest.x) * (1 - min d 10 * 10 * dt / d) := by
    field_simp
    ring
  have hy : tr.y + (dest.y - tr.y) / d * (min d 10 * 10) * dt - dest.y =
      (tr.y - dest.y) * (1 - min d 10 * 10 * dt / d) := by
    field_simp
    ring
  dsimp only
  rw [hx, hy,
    show ((tr.x - dest.x) * (1 - min d 10 * 10 * dt / d)) ^ 2 +
        ((tr.y - dest.y) * (1 - min d 10 * 10 * dt / d)) ^ 2 =
      (1 - min d 10 * 10 * dt / d) ^ 2 *
        ((tr.x - dest.x) ^ 2 + (tr.y - dest.y) ^ 2) from by ring,
    Real.sqrt_mul (sq_nonneg _), Real.sqrt_sq hc2]
  have hsq : Real.sqrt ((tr.x - dest.x) ^ 2 + (tr.y - dest.y) ^ 2) = d := by
    rw [hdd]
    rfl
  rw [hsq]
  field_simp

/-- One step of a moving pawn at `z = 1`: either it is inside the
arrival epsilon and snaps exactly to the target going idle, or it
advances and its distance to the target decreases by exactly
`min d 10 * 10 * dt`. -/
lemma pawnStep_cases (dt : ℝ) (dest : Vec2) (tr : Vec3) (hz : tr.z = 1)
    (hdt0 : 0 < dt) (hdt1 : dt ≤ 1 / 10) :
    (pdist tr dest < 0.1 ∧
      pawnStep dt (PawnState.Move dest, tr) = (PawnState.Idle, ⟨dest.x, dest.y, 1⟩)) ∨
    (0.1 ≤ pdist tr dest ∧ ∃ tr' : Vec3,
      pawnStep dt (PawnState.Move dest, tr) = (PawnState.Move dest, tr') ∧ tr'.z = 1 ∧
      pdist tr' dest = pdist tr dest - min (pdist tr dest) 10 * 10 * dt) := by
  by_cases h : pdist tr dest < 0.1
  · left
    refine ⟨h, ?_⟩
    show ((move_pawn_body dt (PawnState.Move dest) tr).1,
      (move_pawn_body dt (PawnState.Move dest) tr).2.1) = _
    rw [move_pawn_body_snap dt dest tr hz h]
  · right
    refine ⟨not_lt.mp h,
      ⟨tr.x + (moveDir tr dest).1 * (min (pdist tr dest) 10 * 10) * dt,
       tr.y + (moveDir tr dest).2 * (min (pdist tr dest) 10 * 10) * dt, tr.z⟩,
      ?_, hz, pdist_after_advance dt dest tr (not_lt.mp h) hdt0 hdt1⟩
    show ((move_pawn_body dt (PawnState.Move dest) tr).1,
      (move_pawn_body dt (PawnState.Move dest) tr).2.1) = _
    rw [move_pawn_body_advance dt dest tr hz h]

/-- Far phase: as long as the pawn is beyond the speed cap, the distance
shrinks by `100 * dt` per step, so after `k` steps the pawn is idle at
the target or its distance is at most `max (d0 - 100 * dt * k) 10`. -/
lemma pawn_phaseA (dt : ℝ) (dest : Vec2) (p0 : Vec3) (hz : p0.z = 1)
    (hdt0 : 0 < dt) (hdt1 : dt ≤ 1 / 10) :
    ∀ k : ℕ,
      pawnIter dt k (PawnState.Move dest, p0) = (PawnState.Idle, ⟨dest.x, dest.y, 1⟩) ∨
      (∃ tr : Vec3,
        pawnIter dt k (PawnState.Move dest, p0) = (PawnState.Move dest, tr) ∧
        tr.z = 1 ∧ pdist tr dest ≤ max (pdist p0 dest - 100 * dt * k) 10) := by
  intro k
  induction k with
  | zero =>
    right
    refine ⟨p0, rfl, hz, ?_⟩
    push_cast
    rw [mul_zero, sub_zero]
    exact le_max_left _ _
  | succ k ih =>
    rcases ih with hid | ⟨tr, hit, hz', hb⟩
    · left
      rw [pawnIter_succ, hid]
      rfl
    · rcases pawnStep_cases dt dest tr hz' hdt0 hdt1 with
        ⟨hlt, hstep⟩ | ⟨hge, tr', hstep, hz'', hdist⟩
      · left
        rw [pawnIter_succ, hit, hstep]
      · right
        refine ⟨tr', by rw [pawnIter_succ, hit, hstep], hz'', ?_⟩
        rw [hdist]
        rcases le_or_lt (pdist tr dest) 10 with h10 | h10
        · have hm0 : 0 ≤ min (pdist tr dest) 10 * 10 * dt :=
            mul_nonneg (mul_nonneg (le_min (by linarith) (by norm_num)) (by norm_num))
              hdt0.le
          refine le_trans ?_ (le_max_right _ _)
          linarith
        · have hmin : min (pdist tr dest) 10 = 10 := min_eq_right h10.le
          rw [hmin]
          have harm : pdist tr dest ≤ pdist p0 dest - 100 * dt * k := by
            rcases le_max_iff.mp hb with h | h
            · exact h
            · linarith
          refine le_trans ?_ (le_max_left _ _)
          push_cast
          linarith

/-- Cap phase: once the distance is at most the cap, each step scales it
by `1 - 10 * dt`, so after `j` more steps the pawn is idle at the target
or its distance is at most `10 * (1 - 10 * dt) ^ j`. -/
lemma pawn_phaseB (dt : ℝ) (dest : Vec2) (hdt0 : 0 < dt) (hdt1 : dt ≤ 1 / 10)
    (s : PawnState × Vec3)
    (hs : s = (PawnState.Idle, ⟨dest.x, dest.y, 1⟩) ∨
      (∃ tr : Vec3, s = (PawnState.Move dest, tr) ∧ tr.z = 1 ∧ pdist tr dest ≤ 10)) :
    ∀ j : ℕ,
      pawnIter dt j s = (PawnState.Idle, ⟨dest.x, dest.y, 1⟩) ∨
      (∃ tr : Vec3, pawnIter dt j s = (PawnState.Move dest, tr) ∧ tr.z = 1 ∧
        pdist tr dest ≤ 10 * (1 - 10 * dt) ^ j) := by
  have hq0 : (0 : ℝ) ≤ 1 - 10 * dt := by linarith
  intro j
  induction j with
  | zero =>
    rcases hs with h | ⟨tr, h, hz, hb⟩
    · left
      exact h
    · right
      exact ⟨tr, h, hz, by simpa using hb⟩
  | succ j ih =>
    rcases ih with hid | ⟨tr, hit, hz', hb⟩
    · left
      rw [pawnIter_succ, hid]
      rfl
    · rcases pawnStep_cases dt dest tr hz' hdt0 hdt1 with
        ⟨hlt, hstep⟩ | ⟨hge, tr', hstep, hz'', hdist⟩
      · left
        rw [pawnIter_succ, hit, hstep]
      · right
        refine ⟨tr', by rw [pawnIter_succ, hit, hstep], hz'', ?_⟩
        rw [hdist]
        have hpow : (1 - 10 * dt) ^ j ≤ 1 := pow_le_one₀ hq0 (by linarith)
        have h10 : pdist tr dest ≤ 10 := le_trans hb (by nlinarith)
        rw [min_eq_left h10]
        have hstep' : pdist tr dest * (1 - 10 * dt) ≤
            10 * (1 - 10 * dt) ^ j * (1 - 10 * dt) :=
          mul_le_mul_of_nonneg_right hb hq0
        calc pdist tr dest - pdist tr dest * 10 * dt
            = pdist tr dest * (1 - 10 * dt) := by ring
          _ ≤ 10 * (1 - 10 * dt) ^ j * (1 - 10 * dt) := hstep'
          _ = 10 * (1 - 10 * dt) ^ (j + 1) := by ring

/-- C2 amended: for a pawn in `Move(target)` at height 1 stepped with any
fixed elapsed time `dt` with `0 < dt ≤ 0.1`, the pawn reaches `Idle`
with its position exactly the target within a bounded number of steps,
and its distance to the target never increases along the way (no
overshoot).  The restriction on the elapsed time is forced: the step
length is `min(d, 10) * 10 * dt`, which exceeds the remaining distance
`d` whenever `dt > 0.1`, as the counterexample with `dt = 1` shows. -/
theorem move_pawn_bounded_convergence (dest : Vec2) (p0 : Vec3) (dt : ℝ)
    (hdt0 : 0 < dt) (hdt1 : dt ≤ 1 / 10) (hz : p0.z = 1) :
    (∃ N : ℕ, pawnIter dt N (PawnState.Move dest, p0) =
      (PawnState.Idle, ⟨dest.x, dest.y, 1⟩)) ∧
    (∀ n : ℕ,
      pdist (pawnIter dt (n + 1) (PawnState.Move dest, p0)).2 dest ≤
        pdist (pawnIter dt n (PawnState.Move dest, p0)).2 dest) := by
  constructor
  · obtain ⟨K, hK⟩ := exists_nat_ge (pdist p0 dest / (100 * dt))
    have h100 : (0 : ℝ) < 100 * dt := by linarith
    have hKb : pdist p0 dest - 100 * dt * K ≤ 10 := by
      have := (div_le_iff₀ h100).mp hK
      nlinarith
    have hsB : pawnIter dt K (PawnState.Move dest, p0) =
        (PawnState.Idle, ⟨dest.x, dest.y, 1⟩) ∨
        (∃ tr : Vec3, pawnIter dt K (PawnState.Move dest, p0) =
          (PawnState.Move dest, tr) ∧ tr.z = 1 ∧ pdist tr dest ≤ 10) := by
      rcases pawn_phaseA dt dest p0 hz hdt0 hdt1 K with h | ⟨tr, hit, hz', hb⟩
      · left
        exact h
      · right
        exact ⟨tr, hit, hz', le_trans hb (max_le hKb le_rfl)⟩
    have hq1 : 1 - 10 * dt < 1 := by linarith
    obtain ⟨J, hJ⟩ := exists_pow_lt_of_lt_one (show (0 : ℝ) < 1 / 100 by norm_num) hq1
    rcases pawn_phaseB dt dest hdt0 hdt1 _ hsB J with hid | ⟨tr, hit, hz', hb⟩
    · exact ⟨J + K, by rw [← pawnIter_add]; exact hid⟩
    · have hlt : pdist tr dest < 0.1 := by
        have h2 : 10 * (1 - 10 * dt) ^ J < 10 * (1 / 100) :=
          mul_lt_mul_of_pos_left hJ (by norm_num)
        calc pdist tr dest ≤ 10 * (1 - 10 * dt) ^ J := hb
          _ < 0.1 := by linarith
      rcases pawnStep_cases dt dest tr hz' hdt0 hdt1 with ⟨_, hstep⟩ | ⟨hge, _⟩
      · refine ⟨J + K + 1, ?_⟩
        rw [pawnIter_succ, ← pawnIter_add, hit, hstep]
      · linarith
  · intro n
    rcases pawn_phaseA dt dest p0 hz hdt0 hdt1 n with hid | ⟨tr, hit, hz', _⟩
    · rw [pawnIter_succ, hid]
      exact le_refl _
    · rcases pawnStep_cases dt dest tr hz' hdt0 hdt1 with
        ⟨hlt, hstep⟩ | ⟨hge, tr', hstep, _, hdist⟩
      · rw [pawnIter_succ, hit, hstep]
        dsimp only
        rw [pdist_self]
        exact pdist_nonneg tr dest
      · rw [pawnIter_succ, hit, hstep]
        dsimp only
        rw [hdist]
        have hm0 : 0 ≤ min (pdist tr dest) 10 * 10 * dt :=
          mul_nonneg (mul_nonneg (le_min (by linarith) (by norm_num)) (by norm_num))
            hdt0.le
        linarith

/-- C2 witness: the amended convergence theorem at a pawn at the origin
moving to (100, 0) with elapsed time 0.1 per step. -/
theorem move_pawn_bounded_convergence_witness :
    ((0 : ℝ) < 1 / 10 ∧ (1 / 10 : ℝ) ≤ 1 / 10 ∧ (⟨0, 0, 1⟩ : Vec3).z = 1) ∧
    ((∃ N : ℕ, pawnIter (1 / 10) N (PawnState.Move ⟨100, 0⟩, ⟨0, 0, 1⟩) =
       (PawnState.Idle, ⟨(⟨100, 0⟩ : Vec2).x, (⟨100, 0⟩ : Vec2).y, 1⟩)) ∧
     (∀ n : ℕ,
       pdist (pawnIter (1 / 10) (n + 1) (PawnState.Move ⟨100, 0⟩, ⟨0, 0, 1⟩)).2 ⟨100, 0⟩ ≤
         pdist (pawnIter (1 / 10) n (PawnState.Move ⟨100, 0⟩, ⟨0, 0, 1⟩)).2 ⟨100, 0⟩)) :=
  ⟨⟨by norm_num, by norm_num, rfl⟩,
    move_pawn_bounded_convergence ⟨100, 0⟩ ⟨0, 0, 1⟩ (1 / 10)
      (by norm_num) (by norm_num) rfl⟩

end BevyPawn
